import Mathlib

/-!
# Verification of the `length` distance library

Shallow embedding of the Go package `length` (files `length.go`):
a `Distance` is a `float64` count of nanometers, `ParseDistance` is a
hand-written scanner for compound unit expressions such as `"5ft11in"`
or `"-1.5ly"`, and `printMetric`/`printImperial` render a distance.

Modelling conventions:
* Go `float64` values are modelled as exact rationals (`ℚ`).  All
  `float64` comparisons (`<`, `>`, `==`) coincide with the rational
  comparisons on the represented values, and every constant and every
  intermediate value appearing in the verified statements below is far
  from any rounding boundary, so exact arithmetic is faithful there.
* Where Go converts an untyped integer constant to `float64`, the
  converted (rounded) value is used: `1 << 63 - 1` converts to `2^63`
  (in `ParseDistance`'s overflow guard) and `(1 << 63 - 1) / 10`
  (integer division `922337203685477580`) converts to
  `922337203685477632` (in `leadingInt`'s guard).
* The stored `float64` value of the constant `Lightyear` is
  `9460999999999999746244608` (the rounding of the exact constant
  expression `9.461e24`); the sub-ulp difference does not affect any
  statement proved below, and the constant is kept as its exact source
  expression.
* `leadingFraction` accumulates its numerator in an `int64`; that
  variable is modelled as `ℤ` with explicit two's-complement wrapping.
* Go strings are scanned byte by byte; the model scans `List Char`.
  The only non-ASCII characters involved are the micro signs in unit
  suffixes, whose UTF-8 bytes are never digits, dots or sign
  characters, so byte-level and character-level scanning agree on all
  inputs considered here.
-/

namespace Length

/-! ## Unit constants (`length.go`, `const` block) -/

/-- `Nanometer Distance = 1` -/
def Nanometer : ℚ := 1

/-- `Micrometer = 1e3 * Nanometer` -/
def Micrometer : ℚ := 1e3 * Nanometer

/-- `Millimeter = 1e3 * Micrometer` -/
def Millimeter : ℚ := 1e3 * Micrometer

/-- `Centimeter = 10 * Millimeter` -/
def Centimeter : ℚ := 10 * Millimeter

/-- `Meter = 1e3 * Millimeter` -/
def Meter : ℚ := 1e3 * Millimeter

/-- `Kilometer = 1e3 * Meter` -/
def Kilometer : ℚ := 1e3 * Meter

/-- `Inch = 2.54 * Centimeter` -/
def Inch : ℚ := 2.54 * Centimeter

/-- `Feet = 304.8 * Millimeter` -/
def Feet : ℚ := 304.8 * Millimeter

/-- `Yard = 3 * Feet` -/
def Yard : ℚ := 3 * Feet

/-- `Mile = 5280 * Feet` -/
def Mile : ℚ := 5280 * Feet

/-- `Lightyear = 9.461e12 * Kilometer` -/
def Lightyear : ℚ := 9.461e12 * Kilometer

/-! ## Character-level helpers -/

/-- The byte test `'0' <= c && c <= '9'` used throughout the scanner. -/
def isDigitChar (c : Char) : Bool := 48 ≤ c.toNat && c.toNat ≤ 57

/-- The numeric value `int64(c) - '0'` of a digit byte. -/
def digitVal (c : Char) : ℤ := (c.toNat : ℤ) - 48

/-- Two's-complement wrapping of an unbounded integer into `int64`. -/
def wrap64 (z : ℤ) : ℤ := (z + 2 ^ 63) % 2 ^ 64 - 2 ^ 63

/-! ## `leadingInt` (`length.go`)

```go
func leadingInt(s string) (x float64, rem string, err error) {
    i := 0
    for ; i < len(s); i++ {
        c := s[i]
        if c < '0' || c > '9' { break }
        if x > (1<<63-1)/10 { return 0, "", errLeadingInt }
        x = x*10 + float64(int64(c)-'0')
        if x < 0 { return 0, "", errLeadingInt }
    }
    return x, s[i:], nil
}
```
The guard constant `(1<<63-1)/10` is the untyped integer
`922337203685477580`, converted to `float64` as `922337203685477632`. -/

/-- `float64((1<<63-1)/10)`, the overflow guard of `leadingInt`. -/
def leadingIntGuard : ℚ := 922337203685477632

/-- The scanning loop of `leadingInt`; `x` is the accumulator.
Returns `none` on overflow (`errLeadingInt`). -/
def leadingIntAux : ℚ → List Char → Option (ℚ × List Char)
  | x, [] => some (x, [])
  | x, c :: rest =>
    if ¬ isDigitChar c then some (x, c :: rest)
    else if x > leadingIntGuard then none
    else
      let x' := x * 10 + ((digitVal c : ℤ) : ℚ)
      if x' < 0 then none
      else leadingIntAux x' rest

/-- `leadingInt` consumes the leading `[0-9]*` of `s`. -/
def leadingInt (s : List Char) : Option (ℚ × List Char) := leadingIntAux 0 s

/-! ## `leadingFraction` (`length.go`)

```go
func leadingFraction(s string) (x int64, scale float64, rem string) {
    i := 0
    scale = 1
    overflow := false
    for ; i < len(s); i++ {
        c := s[i]
        if c < '0' || c > '9' { break }
        if overflow { continue }
        if x > (1<<63-1)/10 { overflow = true; continue }
        y := x*10 + int64(c) - '0'
        if y < 0 { overflow = true; continue }
        x = y
        scale *= 10
    }
    return x, scale, s[i:]
}
```
Here `x` is an `int64`, so the guard constant is the exact integer
`922337203685477580` and `x*10 + int64(c) - '0'` wraps modulo `2^64`. -/

/-- `(1<<63-1)/10` as an `int64` constant, the guard of `leadingFraction`. -/
def leadingFractionGuard : ℤ := 922337203685477580

/-- The scanning loop of `leadingFraction`: accumulator `x : int64`,
`scale : float64`, and the `overflow` flag.  Never fails; on overflow it
just stops accumulating precision. -/
def leadingFractionAux : ℤ → ℚ → Bool → List Char → ℤ × ℚ × List Char
  | x, scale, _, [] => (x, scale, [])
  | x, scale, overflow, c :: rest =>
    if ¬ isDigitChar c then (x, scale, c :: rest)
    else if overflow then leadingFractionAux x scale true rest
    else if x > leadingFractionGuard then leadingFractionAux x scale true rest
    else
      let y := wrap64 (wrap64 (x * 10) + digitVal c)
      if y < 0 then leadingFractionAux x scale true rest
      else leadingFractionAux y (scale * 10) false rest

/-- `leadingFraction` consumes the leading `[0-9]*` of `s`,
returning numerator, power-of-ten scale and the remainder. -/
def leadingFraction (s : List Char) : ℤ × ℚ × List Char :=
  leadingFractionAux 0 1 false s

/-! ## The unit table (`unitMap` in `length.go`) -/

/-- The `unitMap` map literal, as an association list.
(The Go map has no ordering; all keys are distinct.) -/
def unitMap : List (String × ℚ) :=
  [("nm", Nanometer),
   ("um", Micrometer),
   ("µm", Micrometer),
   ("μm", Micrometer),
   ("mm", Millimeter),
   ("cm", Centimeter),
   ("m", Meter),
   ("km", Kilometer),
   ("in", Inch),
   ("ft", Feet),
   ("yd", Yard),
   ("mi", Mile),
   ("ly", Lightyear)]

/-! ## `ParseDistance` (`length.go`) -/

/-- The three error shapes produced by `ParseDistance`
(the Go code builds them with `errors.New`, also embedding the original
input string in the message; the payloads relevant to the error kind are
kept). -/
inductive ParseErr where
  | invalidDistance : ParseErr
  | missingUnit : ParseErr
  | unknownUnit : List Char → ParseErr
deriving DecidableEq

/-- `float64(1<<63 - 1) = 2^63`, the conversion used in
`ParseDistance`'s per-term overflow guard `v > (1<<63-1)/unit`. -/
def parseGuard : ℚ := 9223372036854775808

/-- The character class ending a unit-suffix run:
`c == '.' || '0' <= c && c <= '9'`. -/
def isUnitEnd (c : Char) : Bool := c = '.' || isDigitChar c

/-- One iteration of `ParseDistance`'s term loop: scan one
`(Digits ('.' Digits?)? | '.' Digits) Unit` term from `s` and return its
value together with the remaining input.

```go
    // The next character must be [0-9.]
    if !(s[0] == '.' || '0' <= s[0] && s[0] <= '9') { return 0, ... }
    pl := len(s)
    v, s, err = leadingInt(s)
    if err != nil { return 0, ... }
    pre := pl != len(s)
    post := false
    if s != "" && s[0] == '.' {
        s = s[1:]
        pl := len(s)
        f, scale, s = leadingFraction(s)
        post = pl != len(s)
    }
    if !pre && !post { return 0, ... }
    i := 0
    for ; i < len(s); i++ {
        c := s[i]
        if c == '.' || '0' <= c && c <= '9' { break }
    }
    if i == 0 { return 0, errors.New("length: missing unit ...") }
    u := s[:i]
    s = s[i:]
    unit, ok := unitMap[u]
    if !ok { return 0, errors.New("length: unknown unit ...") }
    if v > (1<<63-1)/unit { return 0, ... }
    v *= unit
    if f > 0 {
        v += float64(f) * (float64(unit) / scale)
        if v < 0 { return 0, ... }
    }
```

The body is split into the number scan (`parseOneTerm`) and the rest of
the iteration (`parseTermTail`): digit-presence check, unit-suffix
consumption (`u`, the maximal run of characters that are neither digits
nor `'.'`), unit lookup, the per-term overflow guard, and the term value
`v*unit + float64(f)*(float64(unit)/scale)` (Go's local `v2` value is
written out at each use). -/
def parseTermTail (v : ℚ) (pre post : Bool) (f : ℤ) (scale : ℚ) (s2 : List Char) :
    Except ParseErr (ℚ × List Char) :=
  if ¬ pre ∧ ¬ post then .error .invalidDistance
  else if s2.takeWhile (fun c => ! isUnitEnd c) = [] then .error .missingUnit
  else
    match (unitMap.lookup (String.mk (s2.takeWhile (fun c => ! isUnitEnd c))) : Option ℚ) with
    | none => .error (.unknownUnit (s2.takeWhile (fun c => ! isUnitEnd c)))
    | some unit =>
      if v > parseGuard / unit then .error .invalidDistance
      else
        if f > 0 ∧ (if f > 0 then v * unit + (f : ℚ) * (unit / scale) else v * unit) < 0 then
          .error .invalidDistance
        else
          .ok ((if f > 0 then v * unit + (f : ℚ) * (unit / scale) else v * unit),
            s2.dropWhile (fun c => ! isUnitEnd c))

/-- The number scan of one term-loop iteration; see `parseTermTail`. -/
def parseOneTerm (s : List Char) : Except ParseErr (ℚ × List Char) :=
  match s with
  | [] => .error .invalidDistance
  | c0 :: _ =>
    if ¬ (c0 = '.' ∨ isDigitChar c0) then .error .invalidDistance
    else
      match leadingInt s with
      | none => .error .invalidDistance
      | some (v, s1) =>
        let pre : Bool := s.length ≠ s1.length
        match s1 with
        | '.' :: rest =>
          let (f, scale, s2) := leadingFraction rest
          parseTermTail v pre (rest.length ≠ s2.length) f scale s2
        | _ => parseTermTail v pre false 0 1 s1

/-- The `for s != ""` loop of `ParseDistance`, accumulating `d`:
```go
    d += v
    if d < 0 { return 0, errors.New("length: invalid distance ...") }
```
Structured with explicit fuel so that the definition computes; the
callers supply fuel `s.length + 1`, which is always sufficient because
each accepted term consumes at least one character. -/
def parseTerms : ℕ → List Char → ℚ → Except ParseErr ℚ
  | 0, _, _ => .error .invalidDistance
  | _ + 1, [], d => .ok d
  | fuel + 1, c :: s, d =>
    match parseOneTerm (c :: s) with
    | .error e => .error e
    | .ok (v, rest) =>
      let d' := d + v
      if d' < 0 then .error .invalidDistance
      else parseTerms fuel rest d'

/-- `ParseDistance` on the character list of the input:
```go
    orig := s
    var d float64
    neg := false
    if s != "" {
        c := s[0]
        if c == '-' || c == '+' { neg = c == '-'; s = s[1:] }
    }
    if s == "0" { return 0, nil }
    if s == "" { return 0, errors.New("length: invalid distance " + orig) }
    for s != "" { ... }
    if neg { d = -d }
    return Distance(d), nil
```
The `Consume [-+]?` step is split out as `stripSign`: the sign flag
`neg` and the remaining input. -/
def stripSign (s : List Char) : Bool × List Char :=
  match s with
  | c :: rest => if c = '-' ∨ c = '+' then (c = '-', rest) else (false, s)
  | [] => (false, s)

/-- The body of `ParseDistance`, on the character list of the input. -/
def parseDistanceChars (s : List Char) : Except ParseErr ℚ :=
  if (stripSign s).2 = ['0'] then .ok 0
  else if (stripSign s).2 = [] then .error .invalidDistance
  else
    match parseTerms ((stripSign s).2.length + 1) ((stripSign s).2) 0 with
    | .error e => .error e
    | .ok d => .ok (if (stripSign s).1 then -d else d)

/-- `ParseDistance` parses a distance string. -/
def ParseDistance (s : String) : Except ParseErr ℚ :=
  parseDistanceChars s.data

/-! ## The formatter (`printMetric` / `printImperial` in `length.go`)

`fmt.Sprintf("%f", x)` renders a `float64` with exactly six fractional
digits, correctly rounded (ties to even) from the represented value,
with a leading `-` for negative values.  It is modelled below on the
exact rational value; the `float64` division (`float64(d)/float64(Meter)`
etc.) that precedes it in the source is modelled as exact division. -/

/-- Nearest integer to `x`, ties to the even integer —
the rounding `%f` applies to the digit after the kept precision. -/
def roundHalfEven (x : ℚ) : ℤ :=
  let n := ⌊x⌋
  let r := x - (n : ℚ)
  if 1 / 2 < r then n + 1
  else if r < 1 / 2 then n
  else if n % 2 = 0 then n else n + 1

/-- `fmt.Sprintf("%f", x)`: fixed six-digit fractional precision. -/
def formatFixed6 (x : ℚ) : String :=
  let sign := if x < 0 then "-" else ""
  let n : ℕ := (roundHalfEven (|x| * 1000000)).toNat
  let ip := n / 1000000
  let fp := n % 1000000
  let fps := toString fp
  sign ++ toString ip ++ "." ++ String.mk (List.replicate (6 - fps.length) '0') ++ fps

/-- `printMetric` (`length.go`):
```go
    if d >= 1*Meter      { return fmt.Sprintf("%fm", float64(d)/float64(Meter)) }
    if d >= 1*Centimeter { return fmt.Sprintf("%fcm", float64(d)/float64(Centimeter)) }
    if d >= 1*Millimeter { return fmt.Sprintf("%fmm", float64(d)/float64(Millimeter)) }
    if d >= 1*Micrometer { return fmt.Sprintf("%fµm", float64(d)/float64(Micrometer)) }
    if d == 0            { return fmt.Sprintf("0m") }
    return fmt.Sprintf("%fnm", float64(d)/float64(Nanometer))
```
-/
def printMetric (d : ℚ) : String :=
  if d ≥ 1 * Meter then formatFixed6 (d / Meter) ++ "m"
  else if d ≥ 1 * Centimeter then formatFixed6 (d / Centimeter) ++ "cm"
  else if d ≥ 1 * Millimeter then formatFixed6 (d / Millimeter) ++ "mm"
  else if d ≥ 1 * Micrometer then formatFixed6 (d / Micrometer) ++ "µm"
  else if d = 0 then "0m"
  else formatFixed6 (d / Nanometer) ++ "nm"

/-- `printImperial` (`length.go`):
```go
    if d >= 1*Yard { return fmt.Sprintf("%fyd", float64(d)/float64(Yard)) }
    if d >= 1*Feet { return fmt.Sprintf("%fft", float64(d)/float64(Feet)) }
    if d == 0      { return fmt.Sprintf("0yd") }
    return fmt.Sprintf("%fin", float64(d)/float64(Inch))
```
-/
def printImperial (d : ℚ) : String :=
  if d ≥ 1 * Yard then formatFixed6 (d / Yard) ++ "yd"
  else if d ≥ 1 * Feet then formatFixed6 (d / Feet) ++ "ft"
  else if d = 0 then "0yd"
  else formatFixed6 (d / Inch) ++ "in"

/-! ## Helper lemmas -/

theorem lookup_cons_eq {α β : Type} [DecidableEq α] (a k : α) (v : β) (t : List (α × β)) :
    List.lookup a ((k, v) :: t) = if a = k then some v else List.lookup a t := by
  rcases eq_or_ne a k with h | h
  · simp [List.lookup_cons, h]
  · simp [List.lookup_cons, h, beq_eq_false_iff_ne.mpr h]

theorem digitVal_0 : digitVal '0' = 0 := by decide

theorem digitVal_1 : digitVal '1' = 1 := by decide

theorem digitVal_2 : digitVal '2' = 2 := by decide

theorem digitVal_3 : digitVal '3' = 3 := by decide

theorem digitVal_4 : digitVal '4' = 4 := by decide

theorem digitVal_5 : digitVal '5' = 5 := by decide

theorem digitVal_6 : digitVal '6' = 6 := by decide

theorem digitVal_7 : digitVal '7' = 7 := by decide

theorem digitVal_8 : digitVal '8' = 8 := by decide

theorem digitVal_9 : digitVal '9' = 9 := by decide

/-- `wrap64` is the identity on the `int64` range actually reached by
`leadingFraction` (the guard keeps its accumulator small). -/
theorem wrap64_eval (z : ℤ) (h0 : 0 ≤ z) (h1 : z < 2 ^ 63) : wrap64 z = z := by
  unfold wrap64
  rw [Int.emod_eq_of_lt (by omega) (by omega)]
  omega

theorem leadingIntAux_suffix (s : List Char) :
    ∀ x v : ℚ, ∀ rem : List Char, leadingIntAux x s = some (v, rem) → rem <:+ s := by
  induction s with
  | nil =>
    intro x v rem h
    simp only [leadingIntAux] at h
    cases h
    exact List.suffix_refl _
  | cons c rest ih =>
    intro x v rem h
    simp only [leadingIntAux] at h
    split at h
    · cases h
      exact List.suffix_refl _
    · split at h
      · cases h
      · split at h
        · cases h
        · exact (ih _ _ _ h).trans (List.suffix_cons c rest)

theorem leadingIntAux_nonneg (s : List Char) :
    ∀ x v : ℚ, ∀ rem : List Char,
      0 ≤ x → leadingIntAux x s = some (v, rem) → 0 ≤ v := by
  induction s with
  | nil =>
    intro x v rem hx h
    simp only [leadingIntAux] at h
    cases h
    exact hx
  | cons c rest ih =>
    intro x v rem hx h
    simp only [leadingIntAux] at h
    split at h
    · cases h
      exact hx
    · split at h
      · cases h
      · split at h
        · cases h
        · exact ih _ _ _ (by linarith [not_lt.mp (by assumption)]) h

theorem leadingFractionAux_rem (s : List Char) :
    ∀ x : ℤ, ∀ scale : ℚ, ∀ ov : Bool,
      (leadingFractionAux x scale ov s).2.2 = s.dropWhile isDigitChar := by
  induction s with
  | nil =>
    intro x scale ov
    simp [leadingFractionAux, List.dropWhile]
  | cons c rest ih =>
    intro x scale ov
    simp only [leadingFractionAux, List.dropWhile]
    split
    · rename_i hnd
      rw [Bool.not_eq_true] at hnd
      simp [hnd]
    · rename_i hnd
      rw [not_not] at hnd
      simp only [hnd]
      split
      · exact ih _ _ _
      · split
        · exact ih _ _ _
        · split
          · exact ih _ _ _
          · exact ih _ _ _

theorem leadingFractionAux_scale_pos (s : List Char) :
    ∀ x : ℤ, ∀ scale : ℚ, ∀ ov : Bool,
      0 < scale → 0 < (leadingFractionAux x scale ov s).2.1 := by
  induction s with
  | nil =>
    intro x scale ov h
    simpa [leadingFractionAux] using h
  | cons c rest ih =>
    intro x scale ov h
    simp only [leadingFractionAux]
    split
    · simpa using h
    · split
      · exact ih _ _ _ h
      · split
        · exact ih _ _ _ h
        · split
          · exact ih _ _ _ h
          · exact ih _ _ _ (by positivity)

theorem lookup_mem_snd {α β : Type} [DecidableEq α] :
    ∀ (l : List (α × β)) (a : α) (b : β),
      List.lookup a l = some b → b ∈ l.map Prod.snd := by
  intro l
  induction l with
  | nil =>
    intro a b h
    simp [List.lookup] at h
  | cons p t ih =>
    intro a b h
    obtain ⟨k, v⟩ := p
    rw [lookup_cons_eq] at h
    split at h
    · injection h with h2
      simp [h2]
    · simp only [List.map, List.mem_cons]
      exact Or.inr (ih _ _ h)

theorem lookup_isSome_iff_mem_fst {α β : Type} [DecidableEq α] :
    ∀ (l : List (α × β)) (a : α),
      (List.lookup a l).isSome ↔ a ∈ l.map Prod.fst := by
  intro l
  induction l with
  | nil =>
    intro a
    simp [List.lookup]
  | cons p t ih =>
    intro a
    obtain ⟨k, v⟩ := p
    rw [lookup_cons_eq]
    split
    · simp_all
    · rename_i hne
      simp only [List.map, List.mem_cons]
      rw [ih a]
      simp [hne]

theorem lookup_unitMap_pos (k : String) (u : ℚ) (h : unitMap.lookup k = some u) : 0 < u := by
  have hm := lookup_mem_snd unitMap k u h
  simp only [unitMap, List.map, List.mem_cons, List.not_mem_nil, or_false] at hm
  rcases hm with h' | h' | h' | h' | h' | h' | h' | h' | h' | h' | h' | h' | h' <;>
    rw [h'] <;>
    norm_num [Nanometer, Micrometer, Millimeter, Centimeter, Meter, Kilometer,
      Inch, Feet, Yard, Mile, Lightyear]

/-- On success, `parseTermTail` yields a non-negative value, and the
unit-run input `s2` contains a character that is neither a digit
nor `'.'`. -/
theorem parseTermTail_ok (v0 : ℚ) (pre post : Bool) (f : ℤ) (scale : ℚ)
    (s2 : List Char) (v : ℚ) (rest : List Char)
    (hv0 : 0 ≤ v0) (hscale : 0 < scale)
    (h : parseTermTail v0 pre post f scale s2 = .ok (v, rest)) :
    0 ≤ v ∧ ∃ c ∈ s2, isUnitEnd c = false := by
  rw [parseTermTail] at h
  by_cases h1 : ¬ pre = true ∧ ¬ post = true
  · rw [if_pos h1] at h
    exact Except.noConfusion h
  rw [if_neg h1] at h
  by_cases h2 : s2.takeWhile (fun c => ! isUnitEnd c) = []
  · rw [if_pos h2] at h
    exact Except.noConfusion h
  rw [if_neg h2] at h
  have hchar : ∃ c ∈ s2, isUnitEnd c = false := by
    cases hs2 : s2 with
    | nil =>
      rw [hs2] at h2
      simp at h2
    | cons c1 t1 =>
      rw [hs2] at h2
      by_cases hc1 : isUnitEnd c1 = false
      · exact ⟨c1, hs2 ▸ List.mem_cons_self c1 t1, hc1⟩
      · rw [Bool.not_eq_false] at hc1
        rw [List.takeWhile_cons] at h2
        simp [hc1] at h2
  rcases hlu : (unitMap.lookup (String.mk (s2.takeWhile (fun c => ! isUnitEnd c))) : Option ℚ)
    with _ | unit
  · simp only [hlu] at h
    exact Except.noConfusion h
  · simp only [hlu] at h
    have hunit : 0 < unit := lookup_unitMap_pos _ _ hlu
    by_cases h3 : v0 > parseGuard / unit
    · rw [if_pos h3] at h
      exact Except.noConfusion h
    rw [if_neg h3] at h
    have hval : 0 ≤ (if f > 0 then v0 * unit + (f : ℚ) * (unit / scale) else v0 * unit) := by
      by_cases hf : f > 0
      · rw [if_pos hf]
        have ha : 0 ≤ v0 * unit := mul_nonneg hv0 hunit.le
        have hb : 0 < (f : ℚ) * (unit / scale) :=
          mul_pos (by exact_mod_cast hf) (div_pos hunit hscale)
        linarith
      · rw [if_neg hf]
        exact mul_nonneg hv0 hunit.le
    rw [if_neg (by intro hc; exact absurd hval (not_le.mpr hc.2))] at h
    simp only [Except.ok.injEq, Prod.mk.injEq] at h
    exact ⟨h.1 ▸ hval, hchar⟩

/-- A successfully parsed term has a non-negative value, and the
consumed input contains at least one unit-suffix character
(a character that is neither a digit nor `'.'`). -/
theorem parseOneTerm_ok (s : List Char) (v : ℚ) (rest : List Char)
    (h : parseOneTerm s = .ok (v, rest)) :
    0 ≤ v ∧ ∃ c ∈ s, isUnitEnd c = false := by
  cases s with
  | nil => simp [parseOneTerm] at h
  | cons c0 t =>
    simp only [parseOneTerm] at h
    split at h
    · simp at h
    · split at h
      · simp at h
      · rename_i v0 s1 heq
        have hv0 : 0 ≤ v0 := leadingIntAux_nonneg (c0 :: t) 0 v0 s1 le_rfl heq
        have hs1suff : s1 <:+ (c0 :: t) := leadingIntAux_suffix (c0 :: t) 0 v0 s1 heq
        split at h
        · -- fraction branch: s1 is substituted by '.' :: rest'
          rename_i rest'
          have hscale : 0 < (leadingFraction rest').2.1 := by
            unfold leadingFraction
            exact leadingFractionAux_scale_pos rest' 0 1 false one_pos
          obtain ⟨hv, c1, hc1mem, hc1⟩ :=
            parseTermTail_ok v0 _ _ _ _ _ v rest hv0 hscale h
          refine ⟨hv, c1, ?_, hc1⟩
          have hs2suff : (leadingFraction rest').2.2 <:+ (c0 :: t) := by
            have h1 : (leadingFraction rest').2.2 <:+ rest' := by
              unfold leadingFraction
              rw [leadingFractionAux_rem]
              exact List.dropWhile_suffix _
            have h2 : rest' <:+ '.' :: rest' := List.suffix_cons '.' rest'
            exact (h1.trans h2).trans hs1suff
          exact hs2suff.mem hc1mem
        · -- no fraction
          obtain ⟨hv, c1, hc1mem, hc1⟩ :=
            parseTermTail_ok v0 _ _ _ _ _ v rest hv0 one_pos h
          exact ⟨hv, c1, hs1suff.mem hc1mem, hc1⟩


theorem parseTerms_nil_pos (fuel : ℕ) (d : ℚ) (h : 0 < fuel) :
    parseTerms fuel [] d = .ok d := by
  cases fuel with
  | zero => exact absurd h (lt_irrefl 0)
  | succ n => simp [parseTerms]

/-- The running accumulator `d` only shifts the final value: with a
non-negative starting accumulator the loop returns the start plus what
it returns from zero (the `d < 0` overflow check cannot fire, every
term value being non-negative). -/
theorem parseTerms_shift : ∀ (fuel : ℕ) (s : List Char) (d : ℚ), 0 ≤ d →
    parseTerms fuel s d = (parseTerms fuel s 0).map (fun r => d + r) := by
  intro fuel
  induction fuel with
  | zero =>
    intro s d hd
    simp [parseTerms, Except.map]
  | succ n ih =>
    intro s d hd
    cases s with
    | nil => simp [parseTerms, Except.map]
    | cons c t =>
      cases hpo : parseOneTerm (c :: t) with
      | error e => simp [parseTerms, hpo, Except.map]
      | ok pr =>
        obtain ⟨v, rest⟩ := pr
        have hv : 0 ≤ v := (parseOneTerm_ok _ _ _ hpo).1
        simp only [parseTerms, hpo]
        rw [if_neg (by linarith), if_neg (by linarith)]
        rw [zero_add, ih rest (d + v) (by linarith), ih rest v hv]
        cases parseTerms n rest 0 with
        | error e => simp [Except.map]
        | ok r =>
          simp [Except.map]
          ring

/-- A successful run of the term loop on a non-empty input finds a
unit-suffix character in it. -/
theorem parseTerms_ok_unitChar (fuel : ℕ) (s : List Char) (d r : ℚ)
    (hne : s ≠ []) (h : parseTerms fuel s d = .ok r) :
    ∃ c ∈ s, isUnitEnd c = false := by
  cases fuel with
  | zero => simp [parseTerms] at h
  | succ n =>
    cases s with
    | nil => exact absurd rfl hne
    | cons c t =>
      cases hpo : parseOneTerm (c :: t) with
      | error e =>
        rw [parseTerms, hpo] at h
        exact Except.noConfusion h
      | ok pr =>
        obtain ⟨v, rest⟩ := pr
        exact (parseOneTerm_ok _ _ _ hpo).2

/-- Every accepted input is, after the optional sign, either the literal
`"0"` or contains a character that is neither a digit nor `'.'`
(that is: a unit suffix is present). -/
theorem parseDistanceChars_ok_shape (s : List Char) (v : ℚ)
    (h : parseDistanceChars s = .ok v) :
    (stripSign s).2 = ['0'] ∨ ∃ c ∈ (stripSign s).2, isUnitEnd c = false := by
  unfold parseDistanceChars at h
  by_cases h1 : (stripSign s).2 = ['0']
  · exact Or.inl h1
  rw [if_neg h1] at h
  by_cases h2 : (stripSign s).2 = []
  · rw [if_pos h2] at h
    exact Except.noConfusion h
  rw [if_neg h2] at h
  cases hpt : parseTerms ((stripSign s).2.length + 1) ((stripSign s).2) 0 with
  | error e =>
    rw [hpt] at h
    exact Except.noConfusion h
  | ok d =>
    exact Or.inr (parseTerms_ok_unitChar _ _ _ _ h2 hpt)


theorem dropWhile_digit_prefix : ∀ (D r : List Char), (∀ c ∈ D, isDigitChar c = true) →
    (D ++ r).dropWhile isDigitChar = r.dropWhile isDigitChar := by
  intro D
  induction D with
  | nil =>
    intro r _
    simp
  | cons c t ih =>
    intro r hD
    have hc : isDigitChar c = true := hD c (List.mem_cons_self c t)
    simp only [List.cons_append, List.dropWhile_cons, hc, if_true]
    exact ih r (fun c' hc' => hD c' (List.mem_cons_of_mem c hc'))

/-- On an all-digit list followed by `'m'`, `leadingFraction` consumes
exactly the digits. -/
theorem leadingFraction_digits_m (D : List Char) (hD : ∀ c ∈ D, isDigitChar c = true) :
    (leadingFraction (D ++ ['m'])).2.2 = ['m'] := by
  unfold leadingFraction
  rw [leadingFractionAux_rem, dropWhile_digit_prefix D ['m'] hD]
  decide

/-- `parseTermTail` succeeds on the unit run `"m"` whenever a digit was
consumed before the decimal point and the scanned value is within the
overflow guard. -/
theorem parseTermTail_m (v0 : ℚ) (pre post : Bool) (f : ℤ) (sc : ℚ)
    (hpre : pre = true) (hv0 : 0 ≤ v0) (hsc : 0 < sc)
    (hguard : ¬ v0 > parseGuard / Meter) :
    ∃ q, 0 ≤ q ∧ parseTermTail v0 pre post f sc ['m'] = .ok (q, []) := by
  rw [parseTermTail]
  rw [if_neg (by simp [hpre])]
  have htw : (['m'] : List Char).takeWhile (fun c => ! isUnitEnd c) = ['m'] := by decide
  have hdw : (['m'] : List Char).dropWhile (fun c => ! isUnitEnd c) = [] := by decide
  rw [htw, hdw]
  rw [if_neg (by simp)]
  have hlu : (unitMap.lookup (String.mk ['m']) : Option ℚ) = some Meter := by
    norm_num +decide [unitMap, lookup_cons_eq]
  simp only [hlu]
  rw [if_neg hguard]
  have hMeter : (0 : ℚ) < Meter := by
    norm_num [Meter, Millimeter, Micrometer, Nanometer]
  have hvq : 0 ≤ (if f > 0 then v0 * Meter + (f : ℚ) * (Meter / sc) else v0 * Meter) := by
    by_cases hf : f > 0
    · rw [if_pos hf]
      have ha : 0 ≤ v0 * Meter := mul_nonneg hv0 hMeter.le
      have hb : 0 < (f : ℚ) * (Meter / sc) :=
        mul_pos (by exact_mod_cast hf) (div_pos hMeter hsc)
      linarith
    · rw [if_neg hf]
      exact mul_nonneg hv0 hMeter.le
  rw [if_neg (fun hc => absurd hvq (not_le.mpr hc.2))]
  exact ⟨_, hvq, rfl⟩

/-- A term of the shape `1.<digits>m` always scans successfully, for any
number of fractional digits. -/
theorem parseOneTerm_fracm (D : List Char) (hD : ∀ c ∈ D, isDigitChar c = true) :
    ∃ q, 0 ≤ q ∧ parseOneTerm ('1' :: '.' :: (D ++ ['m'])) = .ok (q, []) := by
  have hli : leadingInt ('1' :: '.' :: (D ++ ['m'])) = some (1, '.' :: (D ++ ['m'])) := by
    norm_num +decide [leadingInt, leadingIntAux, isDigitChar, digitVal_1, leadingIntGuard]
  simp only [parseOneTerm, hli]
  rw [if_neg (by decide)]
  have hfd := leadingFraction_digits_m D hD
  have hsc : 0 < (leadingFraction (D ++ ['m'])).2.1 := by
    unfold leadingFraction
    exact leadingFractionAux_scale_pos _ 0 1 false one_pos
  rw [hfd]
  have hguard : ¬ (1 : ℚ) > parseGuard / Meter := by
    norm_num [parseGuard, Meter, Millimeter, Micrometer, Nanometer]
  exact parseTermTail_m 1 _ _ _ _ (by simp) (by norm_num) hsc hguard


/-! ## Concrete evaluation helpers for the claim theorems -/

theorem parseOneTerm_5ft11in : parseOneTerm "5ft11in".data = .ok (5 * Feet, "11in".data) := by
  norm_num +decide [parseOneTerm, parseTermTail, leadingInt, leadingIntAux, leadingIntGuard,
    isDigitChar, isUnitEnd, digitVal_1, digitVal_5, unitMap, lookup_cons_eq, parseGuard,
    Nanometer, Micrometer, Millimeter, Centimeter, Meter, Kilometer, Inch, Feet, Yard, Mile,
    Lightyear]

theorem parse_1ft1in : parseDistanceChars "1ft1in".data = .ok (1 * Feet + 1 * Inch) := by
  norm_num +decide [parseDistanceChars, stripSign, parseTerms, parseOneTerm,
    parseTermTail, leadingInt, leadingIntAux, leadingIntGuard, isDigitChar, isUnitEnd,
    digitVal_1, unitMap, lookup_cons_eq, parseGuard,
    Nanometer, Micrometer, Millimeter, Centimeter, Meter, Kilometer, Inch, Feet, Yard, Mile,
    Lightyear]

/-! ## Claim theorems -/

/-- C1: the spec (and the function documentation) presents `"-1.5ly"`
as a well-formed light-year expression whose parse succeeds with value
`-1.5 × Lightyear`.  The code rejects it: the per-term overflow guard
`v > (1<<63-1)/unit` compares the scanned integer part `1` against
`2^63 / Lightyear < 1`, so every light-year term with integer part at
least 1 returns the invalid-distance error even though the value is far
inside `float64` range (`1.5 × Lightyear < 2^1023`). -/
theorem lightyear_overflow_guard_rejects :
    ParseDistance "-1.5ly" = .error .invalidDistance ∧
    (1 : ℚ) > parseGuard / Lightyear ∧
    (1.5 : ℚ) * Lightyear < 2 ^ 1023 := by
  refine ⟨?_, ?_, ?_⟩
  · norm_num +decide [ParseDistance, parseDistanceChars, stripSign, parseTerms, parseOneTerm,
      parseTermTail, leadingInt, leadingIntAux, leadingIntGuard, leadingFraction,
      leadingFractionAux, leadingFractionGuard, wrap64, isDigitChar, isUnitEnd,
      digitVal_1, digitVal_5, unitMap, lookup_cons_eq, parseGuard,
      Nanometer, Micrometer, Millimeter, Centimeter, Meter, Kilometer, Inch, Feet, Yard, Mile,
      Lightyear]
  · norm_num [parseGuard, Lightyear, Kilometer, Meter, Millimeter, Micrometer, Nanometer]
  · norm_num [Lightyear, Kilometer, Meter, Millimeter, Micrometer, Nanometer]

/-- C2 counterexample: the claim says the zero special case fires only
for the literal input `"0"` and that `"+0"` errors; in the code the
special case is tested after the optional sign is consumed, so `"+0"`
parses successfully to zero. -/
theorem plus_zero_parses : ParseDistance "+0" = .ok 0 := by rfl

/-- C2 (amended): the zero special case fires exactly when the
remainder after consuming an optional sign is `"0"` — so `"0"`, `"+0"`
and `"-0"` all return zero — and these are the only unit-less inputs
accepted: every other accepted input contains, after the sign, a
character that is neither a digit nor `'.'` (a unit suffix), while
`"12"` and `""` error. -/
theorem zero_special_case :
    ParseDistance "0" = .ok 0 ∧
    ParseDistance "+0" = .ok 0 ∧
    ParseDistance "-0" = .ok 0 ∧
    ParseDistance "12" = .error .missingUnit ∧
    ParseDistance "" = .error .invalidDistance ∧
    (∀ (s : List Char) (v : ℚ), parseDistanceChars s = .ok v →
      (stripSign s).2 = ['0'] ∨ ∃ c ∈ (stripSign s).2, isUnitEnd c = false) := by
  refine ⟨by rfl, by rfl, by rfl, ?_, by rfl, parseDistanceChars_ok_shape⟩
  norm_num +decide [ParseDistance, parseDistanceChars, stripSign, parseTerms, parseOneTerm,
    parseTermTail, leadingInt, leadingIntAux, leadingIntGuard, isDigitChar, isUnitEnd,
    digitVal_1, digitVal_2, unitMap, lookup_cons_eq, parseGuard]

/-- C2 witness: the general clause applied to the accepted input `"+0"`. -/
theorem zero_special_case_witness :
    (stripSign "+0".data).2 = ['0'] ∨ ∃ c ∈ (stripSign "+0".data).2, isUnitEnd c = false :=
  zero_special_case.2.2.2.2.2 "+0".data 0 (by rfl)

/-- C4: `"5ft11in"` parses to exactly `5 × Feet + 11 × Inch`, and in
general the loop sums term values left to right: if the first term of
`s` scans to value `v` leaving `rest`, the parse of `s` is `v` plus the
parse of `rest` (the accumulator only shifts the final sum). -/
theorem compound_terms_sum :
    ParseDistance "5ft11in" = .ok (5 * Feet + 11 * Inch) ∧
    (∀ (fuel : ℕ) (s : List Char) (v : ℚ) (rest : List Char),
      parseOneTerm s = .ok (v, rest) →
      parseTerms (fuel + 1) s 0 = (parseTerms fuel rest 0).map (fun r => v + r)) := by
  constructor
  · norm_num +decide [ParseDistance, parseDistanceChars, stripSign, parseTerms, parseOneTerm,
      parseTermTail, leadingInt, leadingIntAux, leadingIntGuard, isDigitChar, isUnitEnd,
      digitVal_1, digitVal_5, unitMap, lookup_cons_eq, parseGuard,
      Nanometer, Micrometer, Millimeter, Centimeter, Meter, Kilometer, Inch, Feet, Yard, Mile,
      Lightyear]
  · intro fuel s v rest hpo
    cases s with
    | nil => simp [parseOneTerm] at hpo
    | cons c t =>
      have hv := (parseOneTerm_ok _ _ _ hpo).1
      simp only [parseTerms, hpo]
      rw [if_neg (by linarith : ¬ ((0 : ℚ) + v < 0))]
      rw [zero_add]
      exact parseTerms_shift fuel rest v hv

/-- C4 witness: the summation clause applied to `"5ft11in"`, whose
first term is `5 × Feet` with remainder `"11in"`. -/
theorem compound_terms_sum_witness :
    parseTerms 8 "5ft11in".data 0 =
      (parseTerms 7 "11in".data 0).map (fun r => 5 * Feet + r) :=
  compound_terms_sum.2 7 "5ft11in".data (5 * Feet) "11in".data parseOneTerm_5ft11in

/-- C5 counterexample: the claim quantifies over every body that parses
successfully, but a body may itself start with a sign: `"+1m"` parses
to one meter, while `"-" ++ "+1m" = "-+1m"` is a syntax error, not the
negation. -/
theorem sign_compound_counterexample :
    ParseDistance "+1m" = .ok Meter ∧ ParseDistance "-+1m" = .error .invalidDistance := by
  constructor
  · norm_num +decide [ParseDistance, parseDistanceChars, stripSign, parseTerms, parseOneTerm,
      parseTermTail, leadingInt, leadingIntAux, leadingIntGuard, isDigitChar, isUnitEnd,
      digitVal_1, unitMap, lookup_cons_eq, parseGuard,
      Nanometer, Micrometer, Millimeter, Centimeter, Meter, Kilometer]
  · norm_num +decide [ParseDistance, parseDistanceChars, stripSign, parseTerms, parseOneTerm,
      parseTermTail, leadingInt, leadingIntAux, leadingIntGuard, isDigitChar, isUnitEnd,
      digitVal_1, unitMap, lookup_cons_eq, parseGuard]

/-- Prefixing `'-'` to a body that does not itself begin with a sign
character negates the parse result: both runs consume the same
remainder with the same fuel, and only the final negation differs. -/
theorem parse_neg_cons (s : List Char) (v : ℚ)
    (hs : ∀ c, s.head? = some c → c ≠ '-' ∧ c ≠ '+')
    (h : parseDistanceChars s = .ok v) :
    parseDistanceChars ('-' :: s) = .ok (-v) := by
  have hstrip : stripSign ('-' :: s) = (true, s) := by
    simp [stripSign]
  have hstrip2 : stripSign s = (false, s) := by
    cases s with
    | nil => rfl
    | cons c t =>
      obtain ⟨hm, hp⟩ := hs c rfl
      simp [stripSign, hm, hp]
  unfold parseDistanceChars at h ⊢
  simp only [hstrip, hstrip2] at h ⊢
  by_cases h0 : s = ['0']
  · rw [if_pos h0] at h ⊢
    simp only [Except.ok.injEq] at h
    rw [← h]
    norm_num
  · rw [if_neg h0] at h ⊢
    by_cases hnil : s = []
    · rw [if_pos hnil] at h
      exact Except.noConfusion h
    · rw [if_neg hnil] at h ⊢
      cases hpt : parseTerms (s.length + 1) s 0 with
      | error e =>
        simp only [hpt] at h
        exact Except.noConfusion h
      | ok d =>
        simp only [hpt, Bool.false_eq_true, if_false, Except.ok.injEq] at h
        simp only [if_true, Except.ok.injEq]
        rw [h]

/-- C5 (amended): for every body that does not itself begin with a sign
character, prefixing `'-'` negates the whole compound sum: if
`parse(body) = v` then `parse("-" ++ body) = -v`; in particular
`parse("-1ft1in") = -(1 × Feet + 1 × Inch)`, not
`(-1 × Feet) + (1 × Inch)`. -/
theorem sign_applies_once :
    (∀ (s : List Char) (v : ℚ),
      (∀ c, s.head? = some c → c ≠ '-' ∧ c ≠ '+') →
      parseDistanceChars s = .ok v →
      parseDistanceChars ('-' :: s) = .ok (-v)) ∧
    ParseDistance "-1ft1in" = .ok (-(1 * Feet + 1 * Inch)) := by
  refine ⟨parse_neg_cons, ?_⟩
  have h2 := parse_neg_cons "1ft1in".data (1 * Feet + 1 * Inch) (by decide) parse_1ft1in
  have hdata : "-1ft1in".data = '-' :: "1ft1in".data := rfl
  rw [ParseDistance, hdata]
  exact h2


/-- C5 witness: the amended clause applied to the body `"1ft1in"`. -/
theorem sign_applies_once_witness :
    parseDistanceChars ('-' :: "1ft1in".data) = .ok (-(1 * Feet + 1 * Inch)) :=
  sign_applies_once.1 "1ft1in".data (1 * Feet + 1 * Inch) (by decide) parse_1ft1in

/-- C6: an otherwise-valid term may carry arbitrarily many fractional
digits and still parses successfully (the fraction scanner never
errors, it only stops accumulating precision), while an integer part
that overflows the guard is rejected: `"1." ++ digits ++ "m"` always
parses for any digit list, and the 19-digit integer input
`"9999999999999999999m"` returns the invalid-distance error. -/
theorem fractional_digits_no_error :
    (∀ D : List Char, (∀ c ∈ D, isDigitChar c = true) →
      ∃ q, parseDistanceChars ('1' :: '.' :: (D ++ ['m'])) = .ok q) ∧
    ParseDistance "9999999999999999999m" = .error .invalidDistance := by
  constructor
  · intro D hD
    obtain ⟨q, hq0, hpo⟩ := parseOneTerm_fracm D hD
    refine ⟨q, ?_⟩
    have hstrip : stripSign ('1' :: '.' :: (D ++ ['m'])) =
        (false, '1' :: '.' :: (D ++ ['m'])) := by
      simp [stripSign]
    unfold parseDistanceChars
    simp only [hstrip]
    rw [if_neg (by simp), if_neg (by simp)]
    simp only [List.length_cons, parseTerms, hpo]
    rw [if_neg (by linarith : ¬ ((0 : ℚ) + q < 0))]
    simp
  · norm_num +decide [ParseDistance, parseDistanceChars, stripSign, parseTerms, parseOneTerm,
      parseTermTail, leadingInt, leadingIntAux, leadingIntGuard, isDigitChar, isUnitEnd,
      digitVal_9, unitMap, lookup_cons_eq, parseGuard]

/-- C6 witness: the fractional clause applied to thirty fractional
digits `7`. -/
theorem fractional_digits_no_error_witness :
    ∃ q, parseDistanceChars ('1' :: '.' :: (List.replicate 30 '7' ++ ['m'])) = .ok q :=
  fractional_digits_no_error.1 (List.replicate 30 '7') (by decide)

/-- C7: metric formatting selects the unit by the descending thresholds
meter, centimeter, millimeter, micrometer, renders `"0m"` exactly for
zero below the micrometer threshold, nanometers otherwise, always with
six fixed fractional digits; `2 × Kilometer` renders as
`"2000.000000m"` and the micrometer suffix is the micro sign U+00B5,
not the ASCII letter `u`. -/
theorem metric_format_selection :
    (∀ d : ℚ, d ≥ 1 * Meter → printMetric d = formatFixed6 (d / Meter) ++ "m") ∧
    (∀ d : ℚ, ¬ d ≥ 1 * Meter → d ≥ 1 * Centimeter →
      printMetric d = formatFixed6 (d / Centimeter) ++ "cm") ∧
    (∀ d : ℚ, ¬ d ≥ 1 * Centimeter → d ≥ 1 * Millimeter →
      printMetric d = formatFixed6 (d / Millimeter) ++ "mm") ∧
    (∀ d : ℚ, ¬ d ≥ 1 * Millimeter → d ≥ 1 * Micrometer →
      printMetric d = formatFixed6 (d / Micrometer) ++ "µm") ∧
    printMetric 0 = "0m" ∧
    (∀ d : ℚ, ¬ d ≥ 1 * Micrometer → d ≠ 0 →
      printMetric d = formatFixed6 (d / Nanometer) ++ "nm") ∧
    printMetric (2 * Kilometer) = "2000.000000m" ∧
    printMetric (2 * Micrometer) = "2.000000µm" ∧
    'µ' ≠ 'u' ∧ ('µ'.toNat = 181 ∧ 'u'.toNat = 117) := by
  have hcm_m : (1 : ℚ) * Centimeter ≤ 1 * Meter := by
    norm_num [Centimeter, Meter, Millimeter, Micrometer, Nanometer]
  have hmm_cm : (1 : ℚ) * Millimeter ≤ 1 * Centimeter := by
    norm_num [Centimeter, Millimeter, Micrometer, Nanometer]
  have hum_mm : (1 : ℚ) * Micrometer ≤ 1 * Millimeter := by
    norm_num [Millimeter, Micrometer, Nanometer]
  refine ⟨?_, ?_, ?_, ?_, ?_, ?_, ?_, ?_, by decide, by decide, by decide⟩
  · intro d h1
    unfold printMetric
    rw [if_pos h1]
  · intro d h1 h2
    unfold printMetric
    rw [if_neg h1, if_pos h2]
  · intro d h2 h3
    have h1 : ¬ d ≥ 1 * Meter := fun hM => h2 (hcm_m.trans hM)
    unfold printMetric
    rw [if_neg h1, if_neg h2, if_pos h3]
  · intro d h3 h4
    have h2 : ¬ d ≥ 1 * Centimeter := fun hC => h3 (hmm_cm.trans hC)
    have h1 : ¬ d ≥ 1 * Meter := fun hM => h2 (hcm_m.trans hM)
    unfold printMetric
    rw [if_neg h1, if_neg h2, if_neg h3, if_pos h4]
  · norm_num [printMetric, Nanometer, Micrometer, Millimeter, Centimeter, Meter]
  · intro d h4 hne
    have h3 : ¬ d ≥ 1 * Millimeter := fun hM => h4 (hum_mm.trans hM)
    have h2 : ¬ d ≥ 1 * Centimeter := fun hC => h3 (hmm_cm.trans hC)
    have h1 : ¬ d ≥ 1 * Meter := fun hM => h2 (hcm_m.trans hM)
    unfold printMetric
    rw [if_neg h1, if_neg h2, if_neg h3, if_neg h4, if_neg hne]
  · norm_num [printMetric, formatFixed6, roundHalfEven,
      Nanometer, Micrometer, Millimeter, Centimeter, Meter, Kilometer]
    decide
  · norm_num [printMetric, formatFixed6, roundHalfEven,
      Nanometer, Micrometer, Millimeter, Centimeter, Meter, Kilometer]
    decide

/-- C7 witness: the meter clause applied to `2 × Kilometer`. -/
theorem metric_format_selection_witness :
    printMetric (2 * Kilometer) = formatFixed6 (2 * Kilometer / Meter) ++ "m" :=
  metric_format_selection.1 (2 * Kilometer)
    (by norm_num [Kilometer, Meter, Millimeter, Micrometer, Nanometer])

/-- C8: the unit constants satisfy exactly the ratio table of the spec,
with the resulting absolute nanometer counts spelled out. -/
theorem unit_constants_exact :
    Nanometer = 1 ∧
    Micrometer = 1e3 * Nanometer ∧
    Millimeter = 1e3 * Micrometer ∧
    Centimeter = 10 * Millimeter ∧
    Meter = 1e3 * Millimeter ∧
    Kilometer = 1e3 * Meter ∧
    Inch = 2.54 * Centimeter ∧
    Feet = 304.8 * Millimeter ∧
    Yard = 3 * Feet ∧
    Mile = 5280 * Feet ∧
    Lightyear = 9.461e12 * Kilometer ∧
    Micrometer = 1000 ∧
    Millimeter = 1000000 ∧
    Centimeter = 10000000 ∧
    Meter = 1000000000 ∧
    Kilometer = 1000000000000 ∧
    Inch = 25400000 ∧
    Feet = 304800000 ∧
    Yard = 914400000 ∧
    Mile = 1609344000000 ∧
    Lightyear = 9461 * 10 ^ 21 := by
  norm_num [Nanometer, Micrometer, Millimeter, Centimeter, Meter, Kilometer,
    Inch, Feet, Yard, Mile, Lightyear]

/-- C9: the unit suffixes accepted by the lookup table are exactly the
thirteen listed strings, matched by exact string equality; the three
micro encodings (`um`, U+00B5 `µm`, U+03BC `μm`) all map to the
micrometer scale; and the unknown suffix `"ms"` makes
`ParseDistance "0ms"` fail with the unknown-unit error. -/
theorem unit_suffix_table :
    (∀ s : String, (unitMap.lookup s).isSome ↔
      s ∈ (["nm", "um", "µm", "μm", "mm", "cm", "m", "km",
            "in", "ft", "yd", "mi", "ly"] : List String)) ∧
    unitMap.lookup "um" = some Micrometer ∧
    unitMap.lookup "µm" = some Micrometer ∧
    unitMap.lookup "μm" = some Micrometer ∧
    ParseDistance "0ms" = .error (.unknownUnit ['m', 's']) := by
  refine ⟨?_, ?_, ?_, ?_, ?_⟩
  · intro s
    rw [lookup_isSome_iff_mem_fst]
    simp [unitMap]
  · norm_num +decide [unitMap, lookup_cons_eq]
  · norm_num +decide [unitMap, lookup_cons_eq]
  · norm_num +decide [unitMap, lookup_cons_eq]
  · norm_num +decide [ParseDistance, parseDistanceChars, stripSign, parseTerms, parseOneTerm,
      parseTermTail, leadingInt, leadingIntAux, leadingIntGuard, isDigitChar, isUnitEnd,
      digitVal_0, unitMap, lookup_cons_eq, parseGuard]

/-- C9 witness: the membership clause applied to the suffix `"ms"`. -/
theorem unit_suffix_table_witness :
    (unitMap.lookup "ms").isSome ↔
      "ms" ∈ (["nm", "um", "µm", "μm", "mm", "cm", "m", "km",
               "in", "ft", "yd", "mi", "ly"] : List String) :=
  unit_suffix_table.1 "ms"

/-- C10: every strictly negative distance falls through all magnitude
thresholds (the comparisons are signed) and is not the zero special
case, so metric formatting always uses the `"nm"` suffix and imperial
formatting always the `"in"` suffix. -/
theorem negative_distance_smallest_unit (d : ℚ) (hd : d < 0) :
    printMetric d = formatFixed6 (d / Nanometer) ++ "nm" ∧
    printImperial d = formatFixed6 (d / Inch) ++ "in" := by
  have hne : ¬ d = 0 := ne_of_lt hd
  constructor
  · have h1 : ¬ d ≥ 1 * Meter := not_le.mpr (lt_of_lt_of_le hd
      (by norm_num [Meter, Millimeter, Micrometer, Nanometer]))
    have h2 : ¬ d ≥ 1 * Centimeter := not_le.mpr (lt_of_lt_of_le hd
      (by norm_num [Centimeter, Millimeter, Micrometer, Nanometer]))
    have h3 : ¬ d ≥ 1 * Millimeter := not_le.mpr (lt_of_lt_of_le hd
      (by norm_num [Millimeter, Micrometer, Nanometer]))
    have h4 : ¬ d ≥ 1 * Micrometer := not_le.mpr (lt_of_lt_of_le hd
      (by norm_num [Micrometer, Nanometer]))
    unfold printMetric
    rw [if_neg h1, if_neg h2, if_neg h3, if_neg h4, if_neg hne]
  · have h5 : ¬ d ≥ 1 * Yard := not_le.mpr (lt_of_lt_of_le hd
      (by norm_num [Yard, Feet, Millimeter, Micrometer, Nanometer]))
    have h6 : ¬ d ≥ 1 * Feet := not_le.mpr (lt_of_lt_of_le hd
      (by norm_num [Feet, Millimeter, Micrometer, Nanometer]))
    unfold printImperial
    rw [if_neg h5, if_neg h6, if_neg hne]

/-- C10 witness: minus two kilometers renders as a nanometer count in
metric mode and an inch count in imperial mode. -/
theorem negative_distance_smallest_unit_witness :
    printMetric (-(2 * Kilometer)) = formatFixed6 (-(2 * Kilometer) / Nanometer) ++ "nm" ∧
    printImperial (-(2 * Kilometer)) = formatFixed6 (-(2 * Kilometer) / Inch) ++ "in" :=
  negative_distance_smallest_unit (-(2 * Kilometer))
    (by norm_num [Kilometer, Meter, Millimeter, Micrometer, Nanometer])

end Length
